import Mathlib

/-!
Verification of the request-coordination core of `soupy_remastered.py`
(SSA-bot repository): a shallow embedding in Lean 4 of the rate limiter,
the TTL caches, the context assembler, the flux job queue and its worker
loop, the image-generation dispatch, and the user-statistics store,
together with theorems settling the specification's claims about them.

Timestamps (`time.time()` values, seconds) are modelled as integers:
every use the code makes of a timestamp is an order or affine comparison,
so nothing is lost by fixing the ordered ring of times to `Int`.
-/

namespace Soupy

/-! ### Dimension rounding (`EditImageModal.on_submit.adjust_to_multiple_of_64`)

Python source:
```
def adjust_to_multiple_of_64(value: int) -> int:
    if value <= 0:
        value = 64
    else:
        value = ((value + 63) // 64) * 64
    return value
```
Python `//` is floor division, hence `Int.fdiv`. -/
def adjust_to_multiple_of_64 (value : Int) : Int :=
  if value ≤ 0 then 64 else (Int.fdiv (value + 63) 64) * 64

/-! ### Rate limiter (`universal_cooldown_check`)

The decorator extracts the interaction's user, then:
* owners (`user_id in OWNER_IDS`) are admitted immediately, with no change
  to `user_interaction_timestamps`;
* otherwise the user's timestamp list is pruned (written back) to entries
  with `current_time - ts < 60`;
* `is_exempt` is set when the user is a `discord.Member` and the lowered
  role names intersect `EXEMPT_ROLES`;
* if not exempt and the pruned count is `>= MAX_INTERACTIONS_PER_MINUTE`,
  a rejection message carrying the limit is sent and the wrapped function
  is not called (the pruned list stays recorded, nothing is appended);
* otherwise `current_time` is appended and the wrapped function runs.
-/

/-- Python `str.lower()` (ASCII view), implemented structurally on the
character list so the kernel can evaluate it. -/
def py_lower (s : String) : String := ⟨s.data.map Char.toLower⟩

/-- Python `str.startswith(p)`. -/
def py_startswith (s p : String) : Bool := p.data.isPrefixOf s.data

/-- Python `needle in haystack` on strings, structurally. -/
def py_contains_sub (haystack needle : String) : Bool :=
  go needle.data haystack.data
where
  go (pat : List Char) : List Char → Bool
    | [] => pat.isPrefixOf []
    | c :: rest => pat.isPrefixOf (c :: rest) || go pat rest

structure CooldownConfig where
  owner_ids : List Nat
  exempt_roles : List String
  max_per_minute : Nat
deriving DecidableEq

/-- Outcome of the cooldown wrapper: either the wrapped function is called,
or a rejection message carrying the configured limit is sent. -/
inductive CooldownDecision
  | admitted
  | rejected (limit : Nat)
deriving DecidableEq

/-- The `is_exempt` computation: `member.roles` lowered, intersected with
`EXEMPT_ROLES` (already lowered at startup). `roles = none` models a user
that is not a `discord.Member`. -/
def cooldown_is_exempt (cfg : CooldownConfig) (roles : Option (List String)) : Bool :=
  match roles with
  | none => false
  | some rs => cfg.exempt_roles.any (fun r => (rs.map py_lower).contains r)

/-- Pruning step: keep timestamps with `current_time - ts < 60`. -/
def prune_window (now : Int) (ts : List Int) : List Int :=
  ts.filter (fun t => now - t < 60)

/-- The rate-limit logic of the `universal_cooldown_check` wrapper, as a
function from the interaction inputs and the user's stored timestamp list
to the decision and the updated timestamp list. -/
def universal_cooldown_check (cfg : CooldownConfig) (user_id : Nat)
    (roles : Option (List String)) (now : Int) (timestamps : List Int) :
    CooldownDecision × List Int :=
  if user_id ∈ cfg.owner_ids then
    (.admitted, timestamps)
  else
    let pruned := prune_window now timestamps
    let is_exempt := cooldown_is_exempt cfg roles
    if ¬ is_exempt ∧ cfg.max_per_minute ≤ pruned.length then
      (.rejected cfg.max_per_minute, pruned)
    else
      (.admitted, pruned ++ [now])

/-! ### TTL caches

The URL-content cache (`url_cache : Dict[str, Tuple[Optional[str], float]]`,
`URL_CACHE_TTL = 3600`) is read and written inline in
`fetch_recent_messages`; the image-description cache (`image_history`) is
written by `process_image_attachment` and read and purged in
`fetch_recent_messages`.  Dictionaries are modelled as association lists
whose update keeps a single binding per key. -/

def URL_CACHE_TTL : Int := 3600

abbrev UrlCache : Type := List (String × (Option String × Int))

/-- Lookup `url_cache[url]` (with `url in url_cache`). -/
def url_cache_find (c : UrlCache) (url : String) : Option (Option String × Int) :=
  ((c.find? (fun e => e.1 = url))).map (fun e => e.2)

/-- The cache read in the URL loop of `fetch_recent_messages`: a hit is an
entry whose age satisfies `current_time - timestamp < URL_CACHE_TTL`;
otherwise the caller falls through and re-fetches. -/
def url_cache_get (c : UrlCache) (url : String) (now : Int) : Option (Option String) :=
  match url_cache_find c url with
  | some (content, ts) => if now - ts < URL_CACHE_TTL then some content else none
  | none => none

/-- The cache write `url_cache[url] = (content, current_time)`. -/
def url_cache_put (c : UrlCache) (url : String) (content : Option String) (now : Int) :
    UrlCache :=
  (url, (content, now)) :: c.filter (fun e => ¬ e.1 = url)

/-- The batch purge at the end of `fetch_recent_messages`: delete entries
with `current_time - timestamp > URL_CACHE_TTL`. -/
def url_cache_purge (c : UrlCache) (now : Int) : UrlCache :=
  c.filter (fun e => ¬ now - e.2.2 > URL_CACHE_TTL)

/-- Value stored in `image_history[message.id]` by `process_image_attachment`. -/
structure ImageInfo where
  description : String
  author : String
  timestamp : Int
  channel_id : Nat
deriving DecidableEq

abbrev ImageHistory : Type := List (Nat × ImageInfo)

/-- The read `if msg.id in image_history: img_info = image_history[msg.id]`
in `fetch_recent_messages`.  Note it checks presence only — it takes no
time argument at all. -/
def image_history_get (h : ImageHistory) (msg_id : Nat) : Option ImageInfo :=
  ((h.find? (fun e => e.1 = msg_id))).map (fun e => e.2)

/-- The write `image_history[message.id] = {...}` in `process_image_attachment`. -/
def image_history_put (h : ImageHistory) (msg_id : Nat) (info : ImageInfo) :
    ImageHistory :=
  (msg_id, info) :: h.filter (fun e => ¬ e.1 = msg_id)

/-- The batch purge of `image_history` at the end of
`fetch_recent_messages`: delete entries with
`(current_time - info['timestamp']).total_seconds() > 3600`. -/
def image_history_purge (h : ImageHistory) (now : Int) : ImageHistory :=
  h.filter (fun e => ¬ now - e.2.timestamp > 3600)

/-! ### Flux job queue and worker (`FluxQueue`)

`FluxQueue` wraps an `asyncio.Queue` (FIFO) with a `_processing` flag, a
`_shutdown` flag and an observable `current_size` counter:

* `put`: `current_size += 1` then `await self._queue.put(item)` (unbounded,
  so the put completes immediately);
* `get`: `item = await self._queue.get()` (blocks while empty) then
  `current_size -= 1`;
* `qsize`: returns `current_size`;
* `initiate_shutdown`: sets `_shutdown` and drains the queue with
  `get_nowait()` — note it never touches `current_size`;
* `process_queue` (the single worker task): while not `_shutdown`, if
  `_processing` sleep and continue, else set `_processing`, `get` one item,
  dispatch it by `type`/`action`, catch and log any exception, and clear
  `_processing` in a `finally`.

The worker is modelled as a labelled transition system whose atomic steps
are the segments of `process_queue` between suspension points, alongside
environment steps (`put`, `initiate_shutdown`).  `enqueued` and
`dispatched` are history variables recording the order of puts and of
dispatches. -/

inductive ButtonKind
  | random | remix | fancy | wide | tall | edit
deriving DecidableEq

/-- A queue item as built at the `flux_queue.put` call sites: either a
`{'type': 'flux', ...}` dict from the `/flux` slash command or a
`{'type': 'button', 'action': ...}` dict from a UI control.  The
`interaction` field stands for the originating request handle. -/
inductive Job
  | flux (interaction : Nat) (description : String) (size : String) (seed : Option Int)
  | button (interaction : Nat) (action : ButtonKind) (prompt : Option String)
      (width : Int) (height : Int) (seed : Option Int)
deriving DecidableEq

structure FluxQueueState where
  queue : List Job
  processing : Bool
  shutdown_flag : Bool
  current_size : Int
deriving DecidableEq

def FluxQueue.init : FluxQueueState := ⟨[], false, false, 0⟩

/-- `FluxQueue.put`. -/
def FluxQueue.put (s : FluxQueueState) (j : Job) : FluxQueueState :=
  { s with current_size := s.current_size + 1, queue := s.queue ++ [j] }

/-- `FluxQueue.get`: returns the front item once one is available. -/
def FluxQueue.get (s : FluxQueueState) : Option (Job × FluxQueueState) :=
  match s.queue with
  | [] => none
  | j :: rest => some (j, { s with queue := rest, current_size := s.current_size - 1 })

/-- `FluxQueue.qsize`. -/
def FluxQueueState.qsize (s : FluxQueueState) : Int := s.current_size

/-- `FluxQueue.initiate_shutdown`: sets the flag and drains the queue via
`get_nowait()`; `current_size` is left as it was. -/
def FluxQueue.initiate_shutdown (s : FluxQueueState) : FluxQueueState :=
  { s with shutdown_flag := true, queue := [] }

/-- Program counter of the single `process_queue` worker task. -/
inductive WorkerPC
  | loopTop                -- about to test `while not self._shutdown`
  | waitingGet             -- `_processing` set, inside `await self.get()`
  | dispatching (j : Job)  -- dispatch of `j` (the awaited handler) in progress
  | finallyClear           -- about to run `finally: self._processing = False`
  | stopped                -- the while loop has exited
deriving DecidableEq

structure SysState where
  q : FluxQueueState
  pc : WorkerPC
  enqueued : List Job
  dispatched : List Job
deriving DecidableEq

/-- Atomic actions: environment actions (`put`, `initiate_shutdown`) and the
worker's steps between suspension points.  `workerFinish ok` is the
completion of the dispatched handler, `ok = false` meaning it raised (the
exception is caught and logged by the `except` clause). -/
inductive Act
  | put (j : Job)
  | initiate_shutdown
  | workerEnter
  | workerPoll
  | workerGet
  | workerFinish (ok : Bool)
  | workerClear
  | workerExit
deriving DecidableEq

/-- One transition; `none` when the action is not enabled in `s` (e.g. a
worker step at the wrong program point, or a `get` while the queue is
empty — the worker stays blocked). -/
def sysStep (s : SysState) : Act → Option SysState
  | .put j =>
      some { s with q := FluxQueue.put s.q j, enqueued := s.enqueued ++ [j] }
  | .initiate_shutdown =>
      some { s with q := FluxQueue.initiate_shutdown s.q }
  | .workerEnter =>
      if s.pc = .loopTop ∧ s.q.shutdown_flag = false ∧ s.q.processing = false then
        some { s with q := { s.q with processing := true }, pc := .waitingGet }
      else none
  | .workerPoll =>
      if s.pc = .loopTop ∧ s.q.shutdown_flag = false ∧ s.q.processing = true then
        some s
      else none
  | .workerGet =>
      if s.pc = .waitingGet then
        match FluxQueue.get s.q with
        | some (j, q') =>
            some { s with q := q', pc := .dispatching j,
                          dispatched := s.dispatched ++ [j] }
        | none => none
      else none
  | .workerFinish _ =>
      match s.pc with
      | .dispatching _ => some { s with pc := .finallyClear }
      | _ => none
  | .workerClear =>
      if s.pc = .finallyClear then
        some { s with q := { s.q with processing := false }, pc := .loopTop }
      else none
  | .workerExit =>
      if s.pc = .loopTop ∧ s.q.shutdown_flag = true then
        some { s with pc := .stopped }
      else none

def sysInit : SysState := ⟨FluxQueue.init, .loopTop, [], []⟩

/-- Run a sequence of actions from the initial state; `none` if any action
is not enabled where it occurs. -/
def sysRun (acts : List Act) : Option SysState :=
  acts.foldlM sysStep sysInit

/-! ### Image generation dispatch (`generate_flux_image`)

The pipeline posts to `{FLUX_SERVER_URL}/flux` with a 120-second timeout.
On HTTP 200 it builds a file named
`f"{random_number}_{safe_prompt}.png"` with
`safe_prompt = re.sub(r'\W+', '', prompt[:40]).lower()` and sends the
image message.  On a non-200 status it logs the error and then evaluates
`if not interaction.followup.is_done():` before sending
`"❌ Flux server error: HTTP {response.status}"` — but
`interaction.followup` is a `discord.Webhook`, which has no `is_done`
method (`is_done` belongs to `InteractionResponse`, and the code uses the
correct `interaction.response.is_done()` a few lines above), so the guard
raises `AttributeError`, the status-carrying send is unreachable, and the
function's own `except Exception as e:` handler replies with
`"❌ An unexpected error occurred during image generation: {e}"`, which
carries no status code.  Connection errors and timeouts send their own
messages.  No branch re-raises out of the function and no branch
retries. -/

/-- Result of a Python attribute access or call that may raise. -/
inductive PyResult (α : Type)
  | ok (a : α)
  | raised (exc : String)
deriving DecidableEq

/-- The guard `interaction.followup.is_done()` of the non-200 branch:
`interaction.followup` is a `discord.Webhook`, which has no `is_done`
attribute, so the access raises `AttributeError` unconditionally. -/
def followup_is_done : PyResult Bool :=
  .raised "AttributeError: Webhook object has no attribute is_done"

/-- Outcome of the HTTP post as seen by `generate_flux_image`. -/
inductive FluxPost
  | completed (status : Nat) (body : List Nat)
  | connectionError        -- ClientConnectorError / ClientOSError
  | timeoutError           -- ServerTimeoutError
  | raised (exc : String)  -- any other exception during the request
deriving DecidableEq

/-- The message `generate_flux_image` delivers to the requester. -/
inductive FluxReply
  | sentImage (filename : String)
  | sentHttpError (status : Nat)   -- "❌ Flux server error: HTTP {status}"
  | sentNoReply                    -- guard satisfied and false: nothing sent
  | sentOffline
  | sentTimeout
  | sentUnexpected (exc : String)  -- the generic except-handler message
deriving DecidableEq

/-- `re.sub(r'\W+', '', prompt[:40]).lower()` (ASCII view of `\w`). -/
def safe_prompt (prompt : String) : String :=
  ⟨((prompt.data.take 40).filter (fun c => c.isAlphanum || c = '_')).map Char.toLower⟩

def flux_filename (random_number : Nat) (prompt : String) : String :=
  toString random_number ++ "_" ++ safe_prompt prompt ++ ".png"

/-- The reply logic of `generate_flux_image` as a function of the HTTP
outcome (a total function of the model: every path of the code ends in a
caught exception or a sent message, none re-raises out of the function,
none retries). -/
def generate_flux_image (resp : FluxPost) (prompt : String)
    (random_number : Nat) : FluxReply :=
  match resp with
  | .completed status _ =>
      if status = 200 then .sentImage (flux_filename random_number prompt)
      else
        -- `if not interaction.followup.is_done():` — evaluating the guard
        -- raises, so the status-carrying send below it is unreachable and
        -- the generic `except Exception` handler replies instead
        match followup_is_done with
        | .ok b => if b then .sentNoReply else .sentHttpError status
        | .raised exc => .sentUnexpected exc
  | .connectionError => .sentOffline
  | .timeoutError => .sentTimeout
  | .raised exc => .sentUnexpected exc

/-! ### User statistics store (`increment_user_stat`, `user_stats_lock`)

`user_stats.json` maps `str(user_id)` to
`{'username': ..., 'servers': {server key → {'images_generated',
'chat_responses', 'mentions'}}}` where the server key is `'global'` or
`str(server_id)`.  `read_user_stats` and `write_user_stats` each take
`user_stats_lock` (an `asyncio.Lock`) around the file access only;
`increment_user_stat` calls `read_user_stats()`, mutates the returned
dict, and calls `write_user_stats(stats)` — so the lock is acquired twice
and released in between.  Python dicts are modelled as association lists
with in-place update and append-at-end insertion. -/

/-- The three counters tracked per bucket. -/
inductive StatKind
  | images_generated | chat_responses | mentions
deriving DecidableEq

structure ServerStats where
  images_generated : Nat
  chat_responses : Nat
  mentions : Nat
deriving DecidableEq

def ServerStats.zero : ServerStats := ⟨0, 0, 0⟩

def ServerStats.getStat (b : ServerStats) : StatKind → Nat
  | .images_generated => b.images_generated
  | .chat_responses => b.chat_responses
  | .mentions => b.mentions

/-- `bucket[stat] += 1`. -/
def ServerStats.incStat (b : ServerStats) : StatKind → ServerStats
  | .images_generated => { b with images_generated := b.images_generated + 1 }
  | .chat_responses => { b with chat_responses := b.chat_responses + 1 }
  | .mentions => { b with mentions := b.mentions + 1 }

/-- Key of a user's `servers` dict: `'global'` or `str(server_id)`. -/
inductive ServerKey
  | global
  | server (id : Int)
deriving DecidableEq

structure UserRecord where
  username : String
  servers : List (ServerKey × ServerStats)
deriving DecidableEq

abbrev UserStats := List (Nat × UserRecord)

/-- Dict lookup. -/
def dict_get {κ β : Type} [DecidableEq κ] : List (κ × β) → κ → Option β
  | [], _ => none
  | (k0, v0) :: rest, k => if k0 = k then some v0 else dict_get rest k

/-- Dict assignment `d[k] = v`: updates in place, appends when absent. -/
def dict_set {κ β : Type} [DecidableEq κ] : List (κ × β) → κ → β → List (κ × β)
  | [], k, v => [(k, v)]
  | (k0, v0) :: rest, k, v =>
      if k0 = k then (k, v) :: rest else (k0, v0) :: dict_set rest k v

/-- The `if key not in d: d[key] = zero-initialized` idiom of
`increment_user_stat`. -/
def ensure_bucket (servers : List (ServerKey × ServerStats)) (k : ServerKey) :
    List (ServerKey × ServerStats) :=
  if (dict_get servers k).isSome then servers
  else dict_set servers k ServerStats.zero

/-- `d[k][stat] += 1`.  Every call site has just ensured `k` is present, so
the `.getD ServerStats.zero` default is never exercised. -/
def py_dict_incr (servers : List (ServerKey × ServerStats)) (k : ServerKey)
    (stat : StatKind) : List (ServerKey × ServerStats) :=
  dict_set servers k (((dict_get servers k).getD ServerStats.zero).incStat stat)

/-- `increment_user_stat(user_id, stat, server_id)` applied to the stats
dict read from storage.  `username` is what `bot.get_user(user_id)`
yields, if anything.  `server_id` follows Python truthiness in
`if server_id:`: both `None` and `0` are falsy. -/
def increment_user_stat (stats : UserStats) (user_id : Nat)
    (username : Option String) (stat : StatKind) (server_id : Option Int) :
    UserStats :=
  -- `if str_user_id not in stats:` zero-initialize with a global bucket
  let rec0 := (dict_get stats user_id).getD
    ⟨"Unknown", [(.global, ServerStats.zero)]⟩
  -- `if user: stats[str_user_id]['username'] = user.name`
  let rec1 := match username with
    | some n => { rec0 with username := n }
    | none => rec0
  -- `if server_id:` initialize the per-server bucket when missing
  let servers1 := match server_id with
    | some sid => if sid ≠ 0 then ensure_bucket rec1.servers (.server sid)
                  else rec1.servers
    | none => rec1.servers
  -- `if 'global' not in stats[...]['servers']:` initialize the global bucket
  let servers2 := ensure_bucket servers1 .global
  -- `stats[...]['servers']['global'][stat] += 1`
  let servers3 := py_dict_incr servers2 .global stat
  -- `if server_id: stats[...]['servers'][str_server_id][stat] += 1`
  let servers4 := match server_id with
    | some sid => if sid ≠ 0 then py_dict_incr servers3 (.server sid) stat
                  else servers3
    | none => servers3
  dict_set stats user_id { rec1 with servers := servers4 }

/-- Value of one counter in one bucket of one user (0 when the user or the
bucket is absent). -/
def statValue (stats : UserStats) (user_id : Nat) (key : ServerKey)
    (stat : StatKind) : Nat :=
  match dict_get stats user_id with
  | none => 0
  | some r =>
      match dict_get r.servers key with
      | none => 0
      | some b => b.getStat stat

/-! ### The statistics lock (`user_stats_lock`) as a two-thread model

`increment_user_stat` is, from the point of view of `user_stats_lock`, the
op sequence acquire–read–release (inside `read_user_stats`), a local
mutation, then acquire–write–release (inside `write_user_stats`).  Two
concurrent increments are modelled as two threads running that op list
under an explicit lock semantics; a schedule is a list of thread ids, and
a schedule step is invalid (`none`) when the named thread's next op is not
enabled (acquiring a held lock, or the thread has finished). -/

inductive StatsOp
  | acquire | release | readStats | writeStats
deriving DecidableEq

/-- The lock-relevant op sequence of the code's `increment_user_stat`: the
lock is taken around the read and around the write separately. -/
def increment_lock_ops : List StatsOp :=
  [.acquire, .readStats, .release, .acquire, .writeStats, .release]

/-- Modelled from the spec: "Read-modify-write under a single
mutual-exclusion lock spanning the full read, mutate, write cycle" — the
op sequence the claim describes, for comparison. -/
def spanning_lock_ops : List StatsOp :=
  [.acquire, .readStats, .writeStats, .release]

structure StatsSysState where
  lock_holder : Option Bool
  store : UserStats   -- contents of user_stats.json
  snapA : UserStats   -- thread A's local `stats` dict
  snapB : UserStats   -- thread B's local `stats` dict
  pcA : Nat
  pcB : Nat
deriving DecidableEq

/-- One schedule step: thread `t` (false = A, true = B) executes its next
op of `prog`, both threads incrementing the same user/stat. -/
def statsStep (prog : List StatsOp) (uid : Nat) (uname : Option String)
    (stat : StatKind) (sid : Option Int) (s : StatsSysState) (t : Bool) :
    Option StatsSysState :=
  let pc := if t then s.pcB else s.pcA
  match prog.get? pc with
  | none => none
  | some op =>
      let adv : StatsSysState :=
        if t then { s with pcB := pc + 1 } else { s with pcA := pc + 1 }
      match op with
      | .acquire =>
          if s.lock_holder = none then some { adv with lock_holder := some t }
          else none
      | .release =>
          if s.lock_holder = some t then some { adv with lock_holder := none }
          else none
      | .readStats =>
          if t then some { adv with snapB := s.store }
          else some { adv with snapA := s.store }
      | .writeStats =>
          some { adv with
            store := increment_user_stat (if t then s.snapB else s.snapA)
              uid uname stat sid }

def statsInit : StatsSysState := ⟨none, [], [], [], 0, 0⟩

def statsRun (prog : List StatsOp) (uid : Nat) (uname : Option String)
    (stat : StatKind) (sid : Option Int) (sched : List Bool) :
    Option StatsSysState :=
  sched.foldlM (statsStep prog uid uname stat sid) statsInit

/-- Program points of `increment_lock_ops` lying inside a locked section
(between an acquire and its release): about to read or to release after
the read (1, 2), and about to write or to release after the write (4, 5). -/
def inCritical (pc : Nat) : Prop := pc = 1 ∨ pc = 2 ∨ pc = 4 ∨ pc = 5

/-! ### Context assembler (`fetch_recent_messages`, `extract_urls`)

`extract_urls` applies `re.findall` with the pattern
`https?://(?:[-\w.]|(?:%[\da-fA-F]{2}))+` and keeps the first
`MAX_URLS_PER_MESSAGE` (default 3) matches.  The character classes are
modelled in their ASCII reading of `\w`/`\d`.  `re.findall` scans left to
right, emitting non-overlapping leftmost matches; note that when the
optional `s` of `https?` is present it is the only viable alternative
(without it the next character would have to be `:` but is `s`), so no
backtracking is needed. -/

def isHexDigit (c : Char) : Bool :=
  c.isDigit || ('a' ≤ c && c ≤ 'f') || ('A' ≤ c && c ≤ 'F')

/-- A character matched by `[-\w.]` (ASCII view of `\w`). -/
def urlBodyChar (c : Char) : Bool :=
  c = '-' || c.isAlphanum || c = '_' || c = '.'

/-- Greedily consume `(?:[-\w.]|(?:%[\da-fA-F]{2}))+` units; returns the
consumed characters and the rest. -/
def takeUrlBody : List Char → List Char × List Char
  | [] => ([], [])
  | c :: rest =>
      if urlBodyChar c then
        let p := takeUrlBody rest
        (c :: p.1, p.2)
      else if c = '%' then
        match rest with
        | a :: b :: rest2 =>
            if isHexDigit a && isHexDigit b then
              let p := takeUrlBody rest2
              (c :: a :: b :: p.1, p.2)
            else ([], c :: rest)
        | _ => ([], c :: rest)
      else ([], c :: rest)

theorem takeUrlBody_length (l : List Char) : (takeUrlBody l).2.length ≤ l.length := by
  induction l using takeUrlBody.induct
  all_goals rw [takeUrlBody.eq_def]
  all_goals try simp_all
  all_goals try split
  all_goals try simp_all
  all_goals try omega

/-- Try to match `https?://(?:[-\w.]|%hh)+` at the head of `l`; on success
return the matched characters and the rest of the input. -/
def matchUrlAt (l : List Char) : Option (List Char × List Char) :=
  match l with
  | 'h' :: 't' :: 't' :: 'p' :: rest =>
      match rest with
      | 's' :: ':' :: '/' :: '/' :: rest2 =>
          if (takeUrlBody rest2).1 = [] then none
          else some ('h' :: 't' :: 't' :: 'p' :: 's' :: ':' :: '/' :: '/' ::
              (takeUrlBody rest2).1, (takeUrlBody rest2).2)
      | ':' :: '/' :: '/' :: rest2 =>
          if (takeUrlBody rest2).1 = [] then none
          else some ('h' :: 't' :: 't' :: 'p' :: ':' :: '/' :: '/' ::
              (takeUrlBody rest2).1, (takeUrlBody rest2).2)
      | _ => none
  | _ => none

theorem matchUrlAt_length {l : List Char} {u r : List Char}
    (h : matchUrlAt l = some (u, r)) : r.length < l.length := by
  unfold matchUrlAt at h
  split at h
  · rename_i rest
    split at h
    · rename_i rest2
      split at h
      · exact absurd h (by simp)
      · simp only [Option.some.injEq, Prod.mk.injEq] at h
        obtain ⟨hu, hr⟩ := h
        subst hr
        have := takeUrlBody_length rest2
        simp only [List.length_cons]
        omega
    · rename_i rest2
      split at h
      · exact absurd h (by simp)
      · simp only [Option.some.injEq, Prod.mk.injEq] at h
        obtain ⟨hu, hr⟩ := h
        subst hr
        have := takeUrlBody_length rest2
        simp only [List.length_cons]
        omega
    · exact absurd h (by simp)
  · exact absurd h (by simp)

/-- The `re.findall` scan: leftmost non-overlapping matches. -/
def findUrlsAux : List Char → List (List Char)
  | [] => []
  | c :: rest =>
      match hm : matchUrlAt (c :: rest) with
      | some p => p.1 :: findUrlsAux p.2
      | none => findUrlsAux rest
termination_by l => l.length
decreasing_by
  · exact matchUrlAt_length hm
  · simp

def MAX_URLS_PER_MESSAGE : Nat := 3

/-- `extract_urls(text)`. -/
def extract_urls (text : String) : List String :=
  ((findUrlsAux text.data).map (fun u => (⟨u⟩ : String))).take MAX_URLS_PER_MESSAGE

/-! ### `fetch_recent_messages`

The channel history is iterated newest first
(`channel.history(limit=limit, oldest_first=False)`).  Per message the
code: skips `!`-commands and the bot's own "Generated Image" posts; skips
the message currently being answered; enriches the content with cached or
freshly fetched URL summaries (mutating `url_cache`) and with a cached
image description; dedupes on `f"{author}:{content}"`; appends the first 5
surviving messages to `current_topic_messages` and the rest to
`background_messages`.  After the loop both caches are purged and
`list(reversed(current_topic_messages + background_messages))` is
returned. -/

structure Msg where
  id : Nat
  author : String       -- msg.author.name
  authorIsBot : Bool    -- msg.author == bot.user
  content : String
  createdAt : Int       -- creation time; the history iterates newest first
deriving DecidableEq

structure FormattedMsg where
  role : String
  content : String
deriving DecidableEq

/-- Python `' '.join(parts)`. -/
def joinSpace : List String → String
  | [] => ""
  | [x] => x
  | x :: xs => x ++ " " ++ joinSpace xs

/-- Python `not s.strip()`: the string is all whitespace. -/
def py_strip_isEmpty (s : String) : Bool :=
  s.data.all Char.isWhitespace

/-- Body of the `for url in urls` loop: fresh cache hits are used as they
are (only truthy content is collected), anything else is (re)fetched and
stored.  `fetch` abstracts the network side of `extract_url_content`. -/
def process_url (fetch : String → Option String) (now : Int)
    (st : UrlCache × List String) (url : String) : UrlCache × List String :=
  match url_cache_get st.1 url now with
  | some content =>
      (st.1, match content with
        | some c => if c ≠ "" then st.2 ++ [c] else st.2
        | none => st.2)
  | none =>
      let content := fetch url
      (url_cache_put st.1 url content now,
       match content with
        | some c => if c ≠ "" then st.2 ++ [c] else st.2
        | none => st.2)

/-- Accumulator of the message loop in `fetch_recent_messages`. -/
structure FetchState where
  cache : UrlCache
  seen : List String
  current_topic : List (Msg × FormattedMsg)
  background : List (Msg × FormattedMsg)
deriving DecidableEq

/-- The test `if current_message_id and msg.id == current_message_id`
(Python truthiness: `None` and `0` are falsy). -/
def is_current_message (current_message_id : Option Nat) (msg_id : Nat) : Bool :=
  match current_message_id with
  | some c => c != 0 && msg_id == c
  | none => false

/-- Content enrichment for one message: the URL loop (which threads the
cache), the image-description attachment, the dedup key
`f"{msg.author.name}:{message_content}"`, and the formatted
`{'role', 'content'}` entry.  Returns (updated cache, key, entry). -/
def message_payload (fetch : String → Option String) (hist : ImageHistory)
    (now : Int) (cacheIn : UrlCache) (msg : Msg) :
    UrlCache × String × FormattedMsg :=
  let processed := (extract_urls msg.content).foldl (process_url fetch now)
    (cacheIn, [])
  let content1 := if processed.2 ≠ [] then
      msg.content ++ "\n" ++ joinSpace processed.2
    else msg.content
  let content2 := match image_history_get hist msg.id with
    | some info =>
        if py_strip_isEmpty content1 then
          "[shares an image: " ++ info.description ++ "]"
        else content1 ++ " [shares an image: " ++ info.description ++ "]"
    | none => content1
  (processed.1, msg.author ++ ":" ++ content2,
   ⟨if msg.authorIsBot then "assistant" else "user",
    msg.author ++ ": " ++ content2⟩)

/-- One iteration of the message loop of `fetch_recent_messages`: skip the
command/bot/current messages, otherwise enrich the content (mutating the
URL cache), dedupe on the key, and append the entry to
`current_topic_messages` while it holds fewer than 5 entries, else to
`background_messages`.  Each entry is kept paired with the message it came
from, so that ordering statements can speak about timestamps; the value
the code returns is the `FormattedMsg` component alone. -/
def process_message (fetch : String → Option String) (hist : ImageHistory)
    (now : Int) (current_message_id : Option Nat)
    (st : FetchState) (msg : Msg) : FetchState :=
  -- skip command messages and the bot's image-generation messages
  if py_startswith msg.content "!" ∨
      (msg.authorIsBot ∧ py_contains_sub msg.content "Generated Image") then st
  -- `if current_message_id and msg.id == current_message_id: continue`
  else if is_current_message current_message_id msg.id then st
  else if (message_payload fetch hist now st.cache msg).2.1 ∈ st.seen then
    { st with cache := (message_payload fetch hist now st.cache msg).1 }
  else if st.current_topic.length < 5 then
    { cache := (message_payload fetch hist now st.cache msg).1,
      seen := st.seen ++ [(message_payload fetch hist now st.cache msg).2.1],
      current_topic :=
        st.current_topic ++ [(msg, (message_payload fetch hist now st.cache msg).2.2)],
      background := st.background }
  else
    { cache := (message_payload fetch hist now st.cache msg).1,
      seen := st.seen ++ [(message_payload fetch hist now st.cache msg).2.1],
      current_topic := st.current_topic,
      background :=
        st.background ++ [(msg, (message_payload fetch hist now st.cache msg).2.2)] }

/-- The pure core of `fetch_recent_messages` with provenance: the final
`list(reversed(current_topic_messages + background_messages))`, each entry
paired with its source message. -/
def fetch_recent_messages_full (msgs : List Msg) (current_message_id : Option Nat)
    (cache0 : UrlCache) (hist : ImageHistory) (fetch : String → Option String)
    (now : Int) : List (Msg × FormattedMsg) :=
  let final := msgs.foldl (process_message fetch hist now current_message_id)
    ⟨cache0, [], [], []⟩
  (final.current_topic ++ final.background).reverse

/-- What `fetch_recent_messages` produces: the ordered `{'role', 'content'}`
list, together with `url_cache` and `image_history` after the final purge
passes. -/
def fetch_recent_messages (msgs : List Msg) (current_message_id : Option Nat)
    (cache0 : UrlCache) (hist : ImageHistory) (fetch : String → Option String)
    (now : Int) : List FormattedMsg × UrlCache × ImageHistory :=
  let final := msgs.foldl (process_message fetch hist now current_message_id)
    ⟨cache0, [], [], []⟩
  (((final.current_topic ++ final.background).map Prod.snd).reverse,
   url_cache_purge final.cache now,
   image_history_purge hist now)

end Soupy

namespace Soupy

/-! ## Claim C9: dimension rounding on the edit path -/

/-- C9: for every integer width/height submitted on the edit path, a
positive value is rounded up to the next multiple of 64 (a value already a
multiple of 64 is unchanged), and any non-positive value becomes 64.
"Next multiple" is pinned down by: the result is a multiple of 64, is at
least the input, and is the least such multiple (below input + 64). -/
theorem adjust_to_multiple_of_64_spec (v : Int) :
    (v ≤ 0 → adjust_to_multiple_of_64 v = 64) ∧
    (0 < v →
      64 ∣ adjust_to_multiple_of_64 v ∧
      v ≤ adjust_to_multiple_of_64 v ∧
      adjust_to_multiple_of_64 v < v + 64 ∧
      (64 ∣ v → adjust_to_multiple_of_64 v = v)) := by
  unfold adjust_to_multiple_of_64
  constructor
  · intro h
    simp [h]
  · intro h
    rw [if_neg (by omega)]
    have h64 : (64 : Int) ∣ Int.fdiv (v + 63) 64 * 64 := dvd_mul_left 64 _
    rw [Int.fdiv_eq_ediv _ (by omega)]
    refine ⟨by rwa [Int.fdiv_eq_ediv _ (by omega)] at h64, ?_, ?_, ?_⟩
    · omega
    · omega
    · intro hv
      omega

/-- Witness for C9 at the concrete inputs 500 and 512. -/
theorem adjust_to_multiple_of_64_spec_witness :
    (0 : Int) < 500 ∧
    64 ∣ adjust_to_multiple_of_64 500 ∧
    (500 : Int) ≤ adjust_to_multiple_of_64 500 ∧
    adjust_to_multiple_of_64 500 < 564 := by
  refine ⟨by decide, ?_, ?_, ?_⟩
  · exact ((adjust_to_multiple_of_64_spec 500).2 (by decide)).1
  · exact ((adjust_to_multiple_of_64_spec 500).2 (by decide)).2.1
  · exact ((adjust_to_multiple_of_64_spec 500).2 (by decide)).2.2.1

/-! ## Claim C2: owners and exempt-role users in the rate limiter

The code admits owners without touching their timestamp list, and admits
exempt-role users without the limit check; but the final
`user_interaction_timestamps[user_id].append(current_time)` runs on every
admitted non-owner path, so an exempt-role user IS recorded.  The claim
that an exempt user "never has a timestamp recorded" is therefore false;
only owners are never recorded. -/

/-- C2 counterexample: a non-owner user holding the exempt role "vip"
(rate-limit config: no owners, exempt role "vip", limit 4), checked at
time 0 with an empty window, is admitted — but time 0 is appended to
their interaction window, contradicting "never has a timestamp recorded
in their interaction window". -/
theorem cooldown_exempt_recorded_cex :
    universal_cooldown_check ⟨[], ["vip"], 4⟩ 1 (some ["VIP"]) 0 [] =
      (.admitted, [0]) ∧ [(0 : Int)] ≠ [] := by
  exact ⟨by decide, by decide⟩

/-- C2 amended: for every rate-limit check, a designated owner is never
rejected and never has a timestamp recorded (their stored list is
untouched); a non-owner holding an exempt role is never rejected, but the
current time IS appended to their (pruned) interaction window. -/
theorem cooldown_owner_exempt_amended (cfg : CooldownConfig) (uid : Nat)
    (roles : Option (List String)) (now : Int) (ts : List Int) :
    (uid ∈ cfg.owner_ids →
      universal_cooldown_check cfg uid roles now ts = (.admitted, ts)) ∧
    (uid ∉ cfg.owner_ids → cooldown_is_exempt cfg roles = true →
      universal_cooldown_check cfg uid roles now ts =
        (.admitted, prune_window now ts ++ [now])) := by
  constructor
  · intro h
    simp [universal_cooldown_check, h]
  · intro h hex
    simp [universal_cooldown_check, h, hex]

/-- Witness for C2 (amended) with owner id 7 and exempt role "vip", at a
config whose limit 0 would otherwise reject everyone. -/
theorem cooldown_owner_exempt_amended_witness :
    (7 ∈ ([7] : List Nat) ∧
      universal_cooldown_check ⟨[7], ["vip"], 0⟩ 7 none 5 [1] = (.admitted, [1])) ∧
    ((1 : Nat) ∉ ([7] : List Nat) ∧
      cooldown_is_exempt ⟨[7], ["vip"], 0⟩ (some ["VIP"]) = true ∧
      universal_cooldown_check ⟨[7], ["vip"], 0⟩ 1 (some ["VIP"]) 5 [1] =
        (.admitted, [1, 5])) := by
  refine ⟨⟨by decide, ?_⟩, ⟨by decide, by decide, ?_⟩⟩
  · exact (cooldown_owner_exempt_amended ⟨[7], ["vip"], 0⟩ 7 none 5 [1]).1 (by decide)
  · exact ((cooldown_owner_exempt_amended ⟨[7], ["vip"], 0⟩ 1 (some ["VIP"]) 5 [1]).2
      (by decide) (by decide)).trans (by decide)

/-! ## Claim C3: the sliding-window limit for ordinary users -/

/-- C3: for a non-owner, non-exempt user, if after pruning to the trailing
60 seconds the count is strictly below the configured max-per-minute, the
interaction is admitted and `now` is recorded; if the count is at or over
the limit it is rejected without recording (the stored list is exactly the
pruned list); and a rejected user stays rejected at any later instant at
which the oldest surviving timestamp has not yet aged out of the
60-second window. -/
theorem cooldown_limit_spec (cfg : CooldownConfig) (uid : Nat)
    (roles : Option (List String)) (now : Int) (ts : List Int)
    (howner : uid ∉ cfg.owner_ids) (hex : cooldown_is_exempt cfg roles = false) :
    ((prune_window now ts).length < cfg.max_per_minute →
      universal_cooldown_check cfg uid roles now ts =
        (.admitted, prune_window now ts ++ [now])) ∧
    (cfg.max_per_minute ≤ (prune_window now ts).length →
      universal_cooldown_check cfg uid roles now ts =
        (.rejected cfg.max_per_minute, prune_window now ts)) ∧
    (∀ m now', cfg.max_per_minute ≤ (prune_window now ts).length →
      m ∈ prune_window now ts →
      (∀ t ∈ prune_window now ts, m ≤ t) →
      now' - m < 60 →
      universal_cooldown_check cfg uid roles now' (prune_window now ts) =
        (.rejected cfg.max_per_minute, prune_window now ts)) := by
  refine ⟨?_, ?_, ?_⟩
  · intro h
    simp [universal_cooldown_check, howner, hex]
    omega
  · intro h
    simp [universal_cooldown_check, howner, hex, h]
  · intro m now' hcount hm hmin hfresh
    have hall : prune_window now' (prune_window now ts) = prune_window now ts := by
      apply List.filter_eq_self.mpr
      intro t ht
      have := hmin t ht
      simp only [decide_eq_true_eq]
      omega
    simp [universal_cooldown_check, howner, hex, hall, hcount]

/-- Witness for C3: limit 2, window [10, 50, 70] at time 100 prunes to
[50, 70], which rejects; at time 109 the oldest survivor 50 has not aged
out and the user is still rejected. -/
theorem cooldown_limit_spec_witness :
    ((1 : Nat) ∉ ([] : List Nat) ∧
      cooldown_is_exempt ⟨[], [], 2⟩ none = false) ∧
    universal_cooldown_check ⟨[], [], 2⟩ 1 none 100 [10, 50, 70] =
      (.rejected 2, [50, 70]) ∧
    universal_cooldown_check ⟨[], [], 2⟩ 1 none 109 [50, 70] =
      (.rejected 2, [50, 70]) := by
  have h := cooldown_limit_spec ⟨[], [], 2⟩ 1 none 100 [10, 50, 70]
    (by decide) (by decide)
  refine ⟨⟨by decide, by decide⟩, ?_, ?_⟩
  · exact (h.2.1 (by decide)).trans (by decide)
  · have h3 := h.2.2 50 109 (by decide) (by decide) (by decide) (by decide)
    exact (by decide : universal_cooldown_check ⟨[], [], 2⟩ 1 none 109 [50, 70] =
      universal_cooldown_check ⟨[], [], 2⟩ 1 none 109 (prune_window 100 [10, 50, 70])) |>.trans
      (h3.trans (by decide))

/-! ## Claim C4: the two TTL caches

For the URL-content cache the claim holds: the inline read treats an entry
of age ≥ TTL as a miss, and the batch purge deletes exactly the entries of
age > TTL.  For the image-description cache the purge is as claimed, but
the read (`if msg.id in image_history`) checks presence only: an entry at
or past the TTL is still returned until a purge pass removes it.  The
claim's "get at or past the TTL behaves as a miss" is therefore false for
the image-description cache. -/

/-- C4 counterexample: an image-description entry stored at time 0 has age
3600 ≥ TTL at time 3600, yet the code's lookup still returns it (the
lookup takes no account of age at all), instead of behaving as a miss. -/
theorem ttl_cache_image_get_stale_cex :
    URL_CACHE_TTL ≤ (3600 : Int) - 0 ∧
    image_history_get (image_history_put [] 42 ⟨"desc", "auth", 0, 7⟩) 42 =
      some ⟨"desc", "auth", 0, 7⟩ := by
  exact ⟨by decide, by decide⟩

/-- C4 amended: for the URL-content cache, a get after a put of the same
key within the 3600-second TTL returns the stored value, a get whose entry
age is at or past the TTL behaves as a miss, and the batch purge keeps
exactly the entries whose age is at most the TTL; for the
image-description cache the batch purge likewise keeps exactly the entries
of age at most 3600 seconds, but its get checks presence only, so a stored
entry is returned regardless of age until a purge removes it. -/
theorem ttl_cache_amended :
    (∀ (c : UrlCache) (url : String) (v : Option String) (now now' : Int),
      now' - now < URL_CACHE_TTL →
      url_cache_get (url_cache_put c url v now) url now' = some v) ∧
    (∀ (c : UrlCache) (url : String) (v : Option String) (ts now : Int),
      url_cache_find c url = some (v, ts) → URL_CACHE_TTL ≤ now - ts →
      url_cache_get c url now = none) ∧
    (∀ (c : UrlCache) (now : Int) (e : String × (Option String × Int)),
      e ∈ url_cache_purge c now ↔ e ∈ c ∧ now - e.2.2 ≤ URL_CACHE_TTL) ∧
    (∀ (h : ImageHistory) (now : Int) (e : Nat × ImageInfo),
      e ∈ image_history_purge h now ↔ e ∈ h ∧ now - e.2.timestamp ≤ 3600) ∧
    (∀ (h : ImageHistory) (msg_id : Nat) (info : ImageInfo),
      image_history_get (image_history_put h msg_id info) msg_id = some info) := by
  refine ⟨?_, ?_, ?_, ?_, ?_⟩
  · intro c url v now now' hfresh
    simp [url_cache_get, url_cache_find, url_cache_put, List.find?_cons_of_pos, hfresh]
  · intro c url v ts now hfind hstale
    simp [url_cache_get, hfind]
    omega
  · intro c now e
    simp [url_cache_purge, List.mem_filter, URL_CACHE_TTL, not_lt]
  · intro h now e
    simp [image_history_purge, List.mem_filter, not_lt]
  · intro h msg_id info
    simp [image_history_get, image_history_put, List.find?_cons_of_pos]

/-- Witness for C4 (amended) at concrete cache states. -/
theorem ttl_cache_amended_witness :
    url_cache_get (url_cache_put [] "u" (some "c") 0) "u" 3599 = some (some "c") ∧
    url_cache_get (url_cache_put [] "u" (some "c") 0) "u" 3600 = none ∧
    (("u", (some "c", 0)) ∈ url_cache_purge [("u", (some "c", 0))] 3600 ↔
      ("u", (some "c", 0)) ∈ ([("u", (some "c", 0))] : UrlCache) ∧
        (3600 : Int) - 0 ≤ URL_CACHE_TTL) ∧
    ((42, ⟨"d", "a", 0, 7⟩) ∈ image_history_purge [(42, ⟨"d", "a", 0, 7⟩)] 3601 ↔
      (42, ⟨"d", "a", 0, 7⟩) ∈ ([(42, ⟨"d", "a", 0, 7⟩)] : ImageHistory) ∧
        (3601 : Int) - 0 ≤ 3600) ∧
    image_history_get (image_history_put [] 9 ⟨"d", "a", 0, 7⟩) 9 =
      some ⟨"d", "a", 0, 7⟩ := by
  refine ⟨?_, ?_, ?_, ?_, ?_⟩
  · exact ttl_cache_amended.1 [] "u" (some "c") 0 3599 (by decide)
  · exact ttl_cache_amended.2.1 (url_cache_put [] "u" (some "c") 0) "u" (some "c") 0 3600
      (by decide) (by decide)
  · exact ttl_cache_amended.2.2.1 [("u", (some "c", 0))] 3600 ("u", (some "c", 0))
  · exact ttl_cache_amended.2.2.2.1 [(42, ⟨"d", "a", 0, 7⟩)] 3601 (42, ⟨"d", "a", 0, 7⟩)
  · exact ttl_cache_amended.2.2.2.2 [] 9 ⟨"d", "a", 0, 7⟩

/-! ## Claim C1: FIFO dispatch and the single processing flag -/

/-- The `_processing` flag is set exactly while the worker is between
`self._processing = True` and the `finally` clause. -/
def flagInv (s : SysState) : Prop :=
  s.q.processing = true ↔
    (s.pc = .waitingGet ∨ (∃ j, s.pc = .dispatching j) ∨ s.pc = .finallyClear)

/-- History invariant: every job ever enqueued is either already dispatched
(in order) or still pending in the FIFO (in order). -/
def fifoInv (s : SysState) : Prop :=
  s.enqueued = s.dispatched ++ s.q.queue

theorem sysStep_flagInv {s s' : SysState} {a : Act}
    (h : sysStep s a = some s') (hs : flagInv s) : flagInv s' := by
  cases a with
  | put j =>
      simp only [sysStep, Option.some.injEq] at h
      subst h; exact hs
  | initiate_shutdown =>
      simp only [sysStep, Option.some.injEq] at h
      subst h
      simpa [flagInv, FluxQueue.initiate_shutdown] using hs
  | workerEnter =>
      simp only [sysStep] at h
      split at h
      · simp only [Option.some.injEq] at h
        subst h; simp [flagInv]
      · exact absurd h (by simp)
  | workerPoll =>
      simp only [sysStep] at h
      split at h
      · simp only [Option.some.injEq] at h
        subst h; exact hs
      · exact absurd h (by simp)
  | workerGet =>
      simp only [sysStep] at h
      split at h
      · rename_i hpc
        cases hq : FluxQueue.get s.q with
        | none => rw [hq] at h; exact absurd h (by simp)
        | some p =>
            rw [hq] at h
            simp only [Option.some.injEq] at h
            subst h
            have hproc : s.q.processing = true := hs.mpr (Or.inl hpc)
            have : p.2.processing = s.q.processing := by
              unfold FluxQueue.get at hq
              cases hql : s.q.queue with
              | nil => rw [hql] at hq; exact absurd hq (by simp)
              | cons j rest =>
                  rw [hql] at hq
                  simp only [Option.some.injEq] at hq
                  rw [← hq]
            constructor
            · intro _; exact Or.inr (Or.inl ⟨p.1, rfl⟩)
            · intro _; rw [this]; exact hproc
      · exact absurd h (by simp)
  | workerFinish ok =>
      simp only [sysStep] at h
      cases hpc : s.pc with
      | dispatching j =>
          rw [hpc] at h
          simp only [Option.some.injEq] at h
          subst h
          have hproc : s.q.processing = true := hs.mpr (Or.inr (Or.inl ⟨j, hpc⟩))
          simp [flagInv, hproc]
      | loopTop => rw [hpc] at h; exact absurd h (by simp)
      | waitingGet => rw [hpc] at h; exact absurd h (by simp)
      | finallyClear => rw [hpc] at h; exact absurd h (by simp)
      | stopped => rw [hpc] at h; exact absurd h (by simp)
  | workerClear =>
      simp only [sysStep] at h
      split at h
      · simp only [Option.some.injEq] at h
        subst h; simp [flagInv]
      · exact absurd h (by simp)
  | workerExit =>
      simp only [sysStep] at h
      split at h
      · rename_i hc
        simp only [Option.some.injEq] at h
        subst h
        have hproc : s.q.processing = false := by
          cases hp : s.q.processing
          · rfl
          · rcases hs.mp hp with h1 | ⟨j, h1⟩ | h1 <;> rw [hc.1] at h1 <;>
              exact absurd h1 (by simp)
        simp [flagInv, hproc]
      · exact absurd h (by simp)

theorem sysStep_fifoInv {s s' : SysState} {a : Act}
    (h : sysStep s a = some s') (ha : a ≠ .initiate_shutdown)
    (hs : fifoInv s) : fifoInv s' := by
  cases a with
  | put j =>
      simp only [sysStep, Option.some.injEq] at h
      subst h
      simp only [fifoInv, FluxQueue.put] at *
      rw [hs, List.append_assoc]
  | initiate_shutdown => exact absurd rfl ha
  | workerEnter =>
      simp only [sysStep] at h
      split at h
      · simp only [Option.some.injEq] at h
        subst h; exact hs
      · exact absurd h (by simp)
  | workerPoll =>
      simp only [sysStep] at h
      split at h
      · simp only [Option.some.injEq] at h
        subst h; exact hs
      · exact absurd h (by simp)
  | workerGet =>
      simp only [sysStep] at h
      split at h
      · cases hq : FluxQueue.get s.q with
        | none => rw [hq] at h; exact absurd h (by simp)
        | some p =>
            rw [hq] at h
            simp only [Option.some.injEq] at h
            subst h
            unfold FluxQueue.get at hq
            cases hql : s.q.queue with
            | nil => rw [hql] at hq; exact absurd hq (by simp)
            | cons j rest =>
                rw [hql] at hq
                simp only [Option.some.injEq] at hq
                simp only [fifoInv] at *
                rw [hs, hql, ← hq]
                simp
      · exact absurd h (by simp)
  | workerFinish ok =>
      simp only [sysStep] at h
      cases hpc : s.pc <;> rw [hpc] at h <;> simp only [Option.some.injEq] at h <;>
        first
        | (subst h; exact hs)
        | exact absurd h (by simp)
  | workerClear =>
      simp only [sysStep] at h
      split at h
      · simp only [Option.some.injEq] at h
        subst h; exact hs
      · exact absurd h (by simp)
  | workerExit =>
      simp only [sysStep] at h
      split at h
      · simp only [Option.some.injEq] at h
        subst h; exact hs
      · exact absurd h (by simp)

theorem sysRun_flagInv : ∀ (acts : List Act) (s0 s : SysState),
    acts.foldlM sysStep s0 = some s → flagInv s0 → flagInv s := by
  intro acts
  induction acts with
  | nil =>
      intro s0 s h h0
      simp only [List.foldlM] at h
      cases h; exact h0
  | cons a rest ih =>
      intro s0 s h h0
      simp only [List.foldlM] at h
      cases h1 : sysStep s0 a with
      | none => rw [h1] at h; exact absurd h (by simp)
      | some s1 =>
          rw [h1] at h
          exact ih s1 s h (sysStep_flagInv h1 h0)

theorem sysRun_fifoInv : ∀ (acts : List Act) (s0 s : SysState),
    acts.foldlM sysStep s0 = some s → Act.initiate_shutdown ∉ acts →
    fifoInv s0 → fifoInv s := by
  intro acts
  induction acts with
  | nil =>
      intro s0 s h _ h0
      simp only [List.foldlM] at h
      cases h; exact h0
  | cons a rest ih =>
      intro s0 s h hns h0
      simp only [List.foldlM] at h
      cases h1 : sysStep s0 a with
      | none => rw [h1] at h; exact absurd h (by simp)
      | some s1 =>
          rw [h1] at h
          have ha : a ≠ .initiate_shutdown := fun he => hns (he ▸ List.mem_cons_self a rest)
          exact ih s1 s h (fun hm => hns (List.mem_cons_of_mem a hm))
            (sysStep_fifoInv h1 ha h0)

/-- C1: along every run of the system in which no shutdown is initiated,
the worker dispatches jobs in exactly the order they were enqueued (the
dispatch history followed by the pending FIFO is the enqueue history), and
at most one job is ever marked processing: the `_processing` flag is set
whenever a dispatch is in progress, and while it is clear no job is being
dispatched (it is set before the dequeue and cleared only in the
`finally`). -/
theorem worker_fifo_single_processing (acts : List Act) (s : SysState)
    (hrun : sysRun acts = some s) (hns : Act.initiate_shutdown ∉ acts) :
    s.enqueued = s.dispatched ++ s.q.queue ∧
    (∀ j, s.pc = .dispatching j → s.q.processing = true) ∧
    (s.q.processing = false → ∀ j, s.pc ≠ .dispatching j) := by
  have hflag : flagInv s :=
    sysRun_flagInv acts sysInit s hrun (by simp [flagInv, sysInit, FluxQueue.init])
  have hfifo : fifoInv s :=
    sysRun_fifoInv acts sysInit s hrun hns (by simp [fifoInv, sysInit, FluxQueue.init])
  refine ⟨hfifo, ?_, ?_⟩
  · intro j hj
    exact hflag.mpr (Or.inr (Or.inl ⟨j, hj⟩))
  · intro hp j hj
    have := hflag.mpr (Or.inr (Or.inl ⟨j, hj⟩))
    rw [hp] at this
    exact Bool.false_ne_true this

/-- Concrete jobs and trace used by the C1 witness: two jobs enqueued, the
first dispatched and its handler having raised (caught), the second now
dispatching. -/
def c1Job1 : Job := .flux 1 "a cat" "square" none

def c1Job2 : Job := .button 2 .remix (some "dog") 512 512 (some 3)

def c1Acts : List Act :=
  [.put c1Job1, .put c1Job2, .workerEnter, .workerGet, .workerFinish false,
   .workerClear, .workerEnter, .workerGet]

def c1Final : SysState :=
  ⟨⟨[], true, false, 0⟩, .dispatching c1Job2, [c1Job1, c1Job2], [c1Job1, c1Job2]⟩

/-- Witness for C1 at the concrete trace `c1Acts`. -/
theorem worker_fifo_single_processing_witness :
    sysRun c1Acts = some c1Final ∧
    Act.initiate_shutdown ∉ c1Acts ∧
    c1Final.enqueued = c1Final.dispatched ++ c1Final.q.queue ∧
    c1Final.q.processing = true := by
  have h := worker_fifo_single_processing c1Acts c1Final (by decide) (by decide)
  exact ⟨by decide, by decide, h.1, h.2.1 c1Job2 rfl⟩

/-! ## Claim C8: per-job error isolation and the non-200 report

The isolation half of the claim matches the code: `process_queue` wraps
each job in `try/except Exception/finally`, so a raising handler is
caught and logged, the job is dropped (no retry, no requeue) and the loop
moves on.  The status-code half does not: both definitions of
`generate_flux_image` (the second shadows the first) guard the non-200
reply with `if not interaction.followup.is_done():` (lines 2278 and
2757), and `interaction.followup` is a `discord.Webhook`, which has no
`is_done` — the correct `interaction.response.is_done()` is used a few
lines above each — so the guard raises `AttributeError`, the
status-carrying send is unreachable, and the generic `except Exception`
handler replies with the unexpected-error message, which carries no
status code.  The claim (and the spec scenario "HTTP 503 → caller
receives ServiceError with status 503") states the evident intent of that
branch; the guard is a slip, so the claim stands as a code bug. -/

/-- Concrete mid-dispatch state (job `c1Job1` dispatched, `c1Job2`
pending) at which C8 is evaluated. -/
def c8State : SysState :=
  ⟨⟨[c1Job2], true, false, 1⟩, .dispatching c1Job1, [c1Job1, c1Job2], [c1Job1]⟩

/-- C8: evaluating the code at the failing input.  On HTTP 503 the
requester receives the generic unexpected-error reply — the result of the
`AttributeError` raised by `interaction.followup.is_done()` — and not the
status-carrying reply the claim describes.  The isolation half of the
claim holds and is evaluated at the concrete mid-dispatch state
`c8State`: a raising handler induces the same worker transition as a
successful one (no retry path), leaves the pending queue and both
histories unchanged (the job is dropped, not requeued), reaches the
`finally`, and the subsequent clear step returns the worker to the loop
top with the flag free, ready for the next job. -/
theorem flux_http_error_report_bug :
    generate_flux_image (.completed 503 []) "a cat" 5 =
      .sentUnexpected "AttributeError: Webhook object has no attribute is_done" ∧
    generate_flux_image (.completed 503 []) "a cat" 5 ≠ .sentHttpError 503 ∧
    sysStep c8State (.workerFinish false) = sysStep c8State (.workerFinish true) ∧
    sysStep c8State (.workerFinish false) =
      some { c8State with pc := .finallyClear } ∧
    sysStep { c8State with pc := .finallyClear } .workerClear =
      some { c8State with q := { c8State.q with processing := false },
                          pc := .loopTop } := by
  refine ⟨by decide, by decide, rfl, by decide, by decide⟩

/-! ## Claim C10: the `qsize` counter and the actual queue contents

`put` and `get` keep `current_size` in lock-step with the FIFO, but
`initiate_shutdown` drains the queue with `get_nowait()` without ever
decrementing `current_size`, so after a drain of n pending jobs `qsize()`
keeps reporting its pre-drain value instead of 0.  The counter is plainly
intended to mirror the queue depth (it is what `qsize()` reports to users
for queue positions), so this is a slip in the drain loop: the claim is
right about the intent and the code violates it. -/

/-- C10: evaluating the model at the failing input. After `put` of one job
the counter matches the queue (both 1); after `initiate_shutdown` drains
that job the queue is empty yet `qsize()` still returns 1, not 0. -/
theorem flux_qsize_shutdown_bug :
    (sysRun [.put c1Job1]).map
        (fun s => (s.q.queue.length, s.q.qsize)) = some (1, 1) ∧
    (sysRun [.put c1Job1, .initiate_shutdown]).map
        (fun s => (s.q.queue.length, s.q.qsize)) = some (0, 1) := by
  exact ⟨by decide, by decide⟩

/-! ## Claim C6: the global and per-server statistic buckets

`increment_user_stat` always increments the `'global'` bucket, and
increments the per-server bucket when `if server_id:` is truthy.  Python
truthiness makes `server_id = 0` a supplied-but-falsy value: the global
bucket is incremented, the per-server bucket is not, so "exactly when a
server id is supplied" fails at 0.  (Real Discord guild ids are nonzero,
so the claimed behaviour holds for every id that can actually occur.) -/

theorem dict_get_set_self {κ β : Type} [DecidableEq κ] (d : List (κ × β))
    (k : κ) (v : β) : dict_get (dict_set d k v) k = some v := by
  induction d with
  | nil => simp [dict_get, dict_set]
  | cons e rest ih =>
      obtain ⟨k0, v0⟩ := e
      by_cases h : k0 = k
      · simp [dict_set, dict_get, h]
      · simp [dict_set, dict_get, h, ih]

theorem dict_get_set_ne {κ β : Type} [DecidableEq κ] (d : List (κ × β))
    {k k' : κ} (v : β) (h : k' ≠ k) :
    dict_get (dict_set d k v) k' = dict_get d k' := by
  induction d with
  | nil => simp [dict_get, dict_set, Ne.symm h]
  | cons e rest ih =>
      obtain ⟨k0, v0⟩ := e
      by_cases h0 : k0 = k
      · subst h0
        simp [dict_set, dict_get, Ne.symm h]
      · simp [dict_set, dict_get, h0, ih]

theorem dict_get_ensure_self (s : List (ServerKey × ServerStats)) (k : ServerKey) :
    dict_get (ensure_bucket s k) k =
      some ((dict_get s k).getD ServerStats.zero) := by
  unfold ensure_bucket
  cases h : dict_get s k with
  | some b => simp [h]
  | none => simp [h, dict_get_set_self]

theorem dict_get_ensure_ne (s : List (ServerKey × ServerStats)) {k k' : ServerKey}
    (h : k' ≠ k) : dict_get (ensure_bucket s k) k' = dict_get s k' := by
  unfold ensure_bucket
  split
  · rfl
  · exact dict_get_set_ne s _ h

theorem dict_get_incr_self (s : List (ServerKey × ServerStats)) (k : ServerKey)
    (stat : StatKind) :
    dict_get (py_dict_incr s k stat) k =
      some (((dict_get s k).getD ServerStats.zero).incStat stat) :=
  dict_get_set_self s k _

theorem dict_get_incr_ne (s : List (ServerKey × ServerStats)) {k k' : ServerKey}
    (stat : StatKind) (h : k' ≠ k) :
    dict_get (py_dict_incr s k stat) k' = dict_get s k' :=
  dict_get_set_ne s _ h

theorem ServerStats.getStat_incStat (b : ServerStats) (stat : StatKind) :
    (b.incStat stat).getStat stat = b.getStat stat + 1 := by
  cases stat <;> rfl

theorem ServerStats.getStat_zero (stat : StatKind) :
    ServerStats.zero.getStat stat = 0 := by
  cases stat <;> rfl

/-- C6 counterexample: a supplied server id 0 is falsy under Python's
`if server_id:`, so the increment bumps the global bucket but not the
per-server bucket, contradicting "the per-server bucket additionally
increases by 1 exactly when a server id is supplied". -/
theorem stats_server_zero_cex :
    statValue (increment_user_stat [] 1 none .images_generated (some 0))
        1 .global .images_generated = 1 ∧
    statValue (increment_user_stat [] 1 none .images_generated (some 0))
        1 (.server 0) .images_generated = 0 := by
  exact ⟨by decide, by decide⟩

/-- C6 amended: every statistics increment raises the global bucket of the
named stat by exactly 1; the per-server bucket additionally rises by 1
exactly when a nonzero server id is supplied (a missing id, or the falsy
id 0, leaves every per-server bucket unchanged).  In particular, from
zero, a global-only increment followed by a server-scoped one leaves the
global bucket at 2 and that server's bucket at 1 (see the witness). -/
theorem increment_user_stat_spec (stats : UserStats) (uid : Nat)
    (uname : Option String) (stat : StatKind) (sid : Option Int) :
    (statValue (increment_user_stat stats uid uname stat sid) uid .global stat =
      statValue stats uid .global stat + 1) ∧
    (∀ s : Int, sid = some s → s ≠ 0 →
      statValue (increment_user_stat stats uid uname stat sid) uid (.server s) stat =
        statValue stats uid (.server s) stat + 1) ∧
    ((sid = none ∨ sid = some 0) → ∀ s : Int,
      statValue (increment_user_stat stats uid uname stat sid) uid (.server s) stat =
        statValue stats uid (.server s) stat) := by
  refine ⟨?_, ?_, ?_⟩
  · rcases sid with _ | s
    · cases uname <;> cases hu : dict_get stats uid <;>
        simp only [increment_user_stat, statValue, hu, dict_get_set_self,
          dict_get_incr_self, dict_get_ensure_self, Option.getD_some,
          Option.getD_none]
      · simp [dict_get, ServerStats.getStat_incStat, ServerStats.getStat_zero]
      · rename_i r
        cases hg : dict_get r.servers .global <;>
          simp [hg, ServerStats.getStat_incStat, ServerStats.getStat_zero]
      · simp [dict_get, ServerStats.getStat_incStat, ServerStats.getStat_zero]
      · rename_i r
        cases hg : dict_get r.servers .global <;>
          simp [hg, ServerStats.getStat_incStat, ServerStats.getStat_zero]
    · by_cases hs : s = 0
      · subst hs
        cases uname <;> cases hu : dict_get stats uid <;>
          simp only [increment_user_stat, statValue, hu, dict_get_set_self,
            dict_get_incr_self, dict_get_ensure_self, Option.getD_some,
            Option.getD_none, ne_eq, not_true_eq_false, if_false, ite_false]
        · simp [dict_get, ServerStats.getStat_incStat, ServerStats.getStat_zero]
        · rename_i r
          cases hg : dict_get r.servers .global <;>
            simp [hg, ServerStats.getStat_incStat, ServerStats.getStat_zero]
        · simp [dict_get, ServerStats.getStat_incStat, ServerStats.getStat_zero]
        · rename_i r
          cases hg : dict_get r.servers .global <;>
            simp [hg, ServerStats.getStat_incStat, ServerStats.getStat_zero]
      · have hne : (ServerKey.global) ≠ ServerKey.server s := by simp
        cases uname <;> cases hu : dict_get stats uid <;>
          simp only [increment_user_stat, statValue, hu, dict_get_set_self,
            dict_get_incr_self, dict_get_ensure_self, Option.getD_some,
            Option.getD_none, ne_eq, hs, not_false_eq_true, if_true, ite_true,
            dict_get_incr_ne _ _ hne, dict_get_ensure_ne _ hne]
        · simp [dict_get, ServerStats.getStat_incStat, ServerStats.getStat_zero]
        · rename_i r
          cases hg : dict_get r.servers .global <;>
            simp [hg, ServerStats.getStat_incStat, ServerStats.getStat_zero]
        · simp [dict_get, ServerStats.getStat_incStat, ServerStats.getStat_zero]
        · rename_i r
          cases hg : dict_get r.servers .global <;>
            simp [hg, ServerStats.getStat_incStat, ServerStats.getStat_zero]
  · intro s hsid hs
    subst hsid
    have hne : (ServerKey.global) ≠ ServerKey.server s := by simp
    have hne' : (ServerKey.server s) ≠ ServerKey.global := by simp
    cases uname <;> cases hu : dict_get stats uid <;>
      simp only [increment_user_stat, statValue, hu, dict_get_set_self,
        dict_get_incr_self, dict_get_ensure_self, Option.getD_some,
        Option.getD_none, ne_eq, hs, not_false_eq_true, if_true, ite_true,
        dict_get_incr_ne _ _ hne', dict_get_ensure_ne _ hne']
    · simp [dict_get, ServerStats.getStat_incStat, ServerStats.getStat_zero]
    · rename_i r
      cases hg : dict_get r.servers (.server s) <;>
        simp [hg, ServerStats.getStat_incStat, ServerStats.getStat_zero]
    · simp [dict_get, ServerStats.getStat_incStat, ServerStats.getStat_zero]
    · rename_i r
      cases hg : dict_get r.servers (.server s) <;>
        simp [hg, ServerStats.getStat_incStat, ServerStats.getStat_zero]
  · intro hsid s
    have hne' : (ServerKey.server s) ≠ ServerKey.global := by simp
    rcases hsid with rfl | rfl
    · cases uname <;> cases hu : dict_get stats uid <;>
        simp only [increment_user_stat, statValue, hu, dict_get_set_self,
          dict_get_incr_self, dict_get_ensure_self, Option.getD_some,
          Option.getD_none, dict_get_incr_ne _ _ hne', dict_get_ensure_ne _ hne']
      all_goals rfl
    · cases uname <;> cases hu : dict_get stats uid <;>
        simp only [increment_user_stat, statValue, hu, dict_get_set_self,
          dict_get_incr_self, dict_get_ensure_self, Option.getD_some,
          Option.getD_none, ne_eq, not_true_eq_false, if_false, ite_false,
          dict_get_incr_ne _ _ hne', dict_get_ensure_ne _ hne']
      all_goals rfl

/-- Witness for C6 (amended): the two-increment scenario.  Starting from an
empty store, a global-only increment followed by one scoped to server 5
leaves the global bucket at 2 and server 5's bucket at 1. -/
theorem increment_user_stat_spec_witness :
    statValue (increment_user_stat [] 1 none .images_generated none)
        1 .global .images_generated = 1 ∧
    statValue
        (increment_user_stat (increment_user_stat [] 1 none .images_generated none)
          1 none .images_generated (some 5))
        1 .global .images_generated = 2 ∧
    statValue
        (increment_user_stat (increment_user_stat [] 1 none .images_generated none)
          1 none .images_generated (some 5))
        1 (.server 5) .images_generated = 1 := by
  have h1 := (increment_user_stat_spec [] 1 none .images_generated none).1
  have h2 := (increment_user_stat_spec
    (increment_user_stat [] 1 none .images_generated none)
    1 none .images_generated (some 5)).1
  have h3 := (increment_user_stat_spec
    (increment_user_stat [] 1 none .images_generated none)
    1 none .images_generated (some 5)).2.1 5 rfl (by decide)
  refine ⟨?_, ?_, ?_⟩
  · rw [h1]; decide
  · rw [h2, h1]; decide
  · rw [h3]; decide

/-! ## Claim C7: the statistics lock does not span the read-modify-write -/

/-- Lock discipline: a thread's program counter is inside a locked section
exactly when it holds `user_stats_lock`. -/
def statsLockInv (s : StatsSysState) : Prop :=
  (inCritical s.pcA ↔ s.lock_holder = some false) ∧
  (inCritical s.pcB ↔ s.lock_holder = some true)

theorem statsStep_lockInv (uid : Nat) (uname : Option String) (stat : StatKind)
    (sid : Option Int) {s s' : StatsSysState} {t : Bool}
    (h : statsStep increment_lock_ops uid uname stat sid s t = some s')
    (hs : statsLockInv s) : statsLockInv s' := by
  obtain ⟨hA, hB⟩ := hs
  cases t
  · have h6 : s.pcA < 6 := by
      by_contra hge
      push_neg at hge
      have hn : increment_lock_ops.get? s.pcA = none := by
        rw [List.get?_eq_none]
        simpa [increment_lock_ops] using hge
      simp only [statsStep, Bool.false_eq_true, if_false, hn] at h
      exact absurd h (by simp)
    have hcase : s.pcA = 0 ∨ s.pcA = 1 ∨ s.pcA = 2 ∨ s.pcA = 3 ∨ s.pcA = 4 ∨
        s.pcA = 5 := by omega
    rcases hcase with hpc | hpc | hpc | hpc | hpc | hpc
    · have hop : increment_lock_ops.get? 0 = some StatsOp.acquire := rfl
      simp only [statsStep, Bool.false_eq_true, if_false, hpc, hop] at h
      split at h
      · rename_i hfree
        simp only [Option.some.injEq] at h
        subst h
        constructor
        · simp [inCritical]
        · simpa [inCritical, hfree] using hB
      · exact absurd h (by simp)
    · have hop : increment_lock_ops.get? 1 = some StatsOp.readStats := rfl
      simp only [statsStep, Bool.false_eq_true, if_false, hpc, hop, Option.some.injEq] at h
      subst h
      have hhold : s.lock_holder = some false := hA.mp (by rw [hpc]; simp [inCritical])
      constructor
      · simp [inCritical, hhold]
      · simpa [inCritical, hhold] using hB
    · have hop : increment_lock_ops.get? 2 = some StatsOp.release := rfl
      simp only [statsStep, Bool.false_eq_true, if_false, hpc, hop] at h
      split at h
      · rename_i hhold
        simp only [Option.some.injEq] at h
        subst h
        constructor
        · simp [inCritical]
        · simpa [inCritical, hhold] using hB
      · exact absurd h (by simp)
    · have hop : increment_lock_ops.get? 3 = some StatsOp.acquire := rfl
      simp only [statsStep, Bool.false_eq_true, if_false, hpc, hop] at h
      split at h
      · rename_i hfree
        simp only [Option.some.injEq] at h
        subst h
        constructor
        · simp [inCritical]
        · simpa [inCritical, hfree] using hB
      · exact absurd h (by simp)
    · have hop : increment_lock_ops.get? 4 = some StatsOp.writeStats := rfl
      simp only [statsStep, Bool.false_eq_true, if_false, hpc, hop, Option.some.injEq] at h
      subst h
      have hhold : s.lock_holder = some false := hA.mp (by rw [hpc]; simp [inCritical])
      constructor
      · simp [inCritical, hhold]
      · simpa [inCritical, hhold] using hB
    · have hop : increment_lock_ops.get? 5 = some StatsOp.release := rfl
      simp only [statsStep, Bool.false_eq_true, if_false, hpc, hop] at h
      split at h
      · rename_i hhold
        simp only [Option.some.injEq] at h
        subst h
        constructor
        · simp [inCritical]
        · simpa [inCritical, hhold] using hB
      · exact absurd h (by simp)
  · have h6 : s.pcB < 6 := by
      by_contra hge
      push_neg at hge
      have hn : increment_lock_ops.get? s.pcB = none := by
        rw [List.get?_eq_none]
        simpa [increment_lock_ops] using hge
      simp only [statsStep, eq_self_iff_true, if_true, hn] at h
      exact absurd h (by simp)
    have hcase : s.pcB = 0 ∨ s.pcB = 1 ∨ s.pcB = 2 ∨ s.pcB = 3 ∨ s.pcB = 4 ∨
        s.pcB = 5 := by omega
    rcases hcase with hpc | hpc | hpc | hpc | hpc | hpc
    · have hop : increment_lock_ops.get? 0 = some StatsOp.acquire := rfl
      simp only [statsStep, eq_self_iff_true, if_true, hpc, hop] at h
      split at h
      · rename_i hfree
        simp only [Option.some.injEq] at h
        subst h
        constructor
        · simpa [inCritical, hfree] using hA
        · simp [inCritical]
      · exact absurd h (by simp)
    · have hop : increment_lock_ops.get? 1 = some StatsOp.readStats := rfl
      simp only [statsStep, eq_self_iff_true, if_true, hpc, hop, Option.some.injEq] at h
      subst h
      have hhold : s.lock_holder = some true := hB.mp (by rw [hpc]; simp [inCritical])
      constructor
      · simpa [inCritical, hhold] using hA
      · simp [inCritical, hhold]
    · have hop : increment_lock_ops.get? 2 = some StatsOp.release := rfl
      simp only [statsStep, eq_self_iff_true, if_true, hpc, hop] at h
      split at h
      · rename_i hhold
        simp only [Option.some.injEq] at h
        subst h
        constructor
        · simpa [inCritical, hhold] using hA
        · simp [inCritical]
      · exact absurd h (by simp)
    · have hop : increment_lock_ops.get? 3 = some StatsOp.acquire := rfl
      simp only [statsStep, eq_self_iff_true, if_true, hpc, hop] at h
      split at h
      · rename_i hfree
        simp only [Option.some.injEq] at h
        subst h
        constructor
        · simpa [inCritical, hfree] using hA
        · simp [inCritical]
      · exact absurd h (by simp)
    · have hop : increment_lock_ops.get? 4 = some StatsOp.writeStats := rfl
      simp only [statsStep, eq_self_iff_true, if_true, hpc, hop, Option.some.injEq] at h
      subst h
      have hhold : s.lock_holder = some true := hB.mp (by rw [hpc]; simp [inCritical])
      constructor
      · simpa [inCritical, hhold] using hA
      · simp [inCritical, hhold]
    · have hop : increment_lock_ops.get? 5 = some StatsOp.release := rfl
      simp only [statsStep, eq_self_iff_true, if_true, hpc, hop] at h
      split at h
      · rename_i hhold
        simp only [Option.some.injEq] at h
        subst h
        constructor
        · simpa [inCritical, hhold] using hA
        · simp [inCritical]
      · exact absurd h (by simp)

theorem statsRun_lockInv : ∀ (sched : List Bool) (uid : Nat)
    (uname : Option String) (stat : StatKind) (sid : Option Int)
    (s0 s : StatsSysState),
    sched.foldlM (statsStep increment_lock_ops uid uname stat sid) s0 = some s →
    statsLockInv s0 → statsLockInv s := by
  intro sched
  induction sched with
  | nil =>
      intro _ _ _ _ s0 s h h0
      simp only [List.foldlM] at h
      cases h; exact h0
  | cons t rest ih =>
      intro uid uname stat sid s0 s h h0
      simp only [List.foldlM] at h
      cases h1 : statsStep increment_lock_ops uid uname stat sid s0 t with
      | none => rw [h1] at h; exact absurd h (by simp)
      | some s1 =>
          rw [h1] at h
          exact ih uid uname stat sid s1 s h
            (statsStep_lockInv uid uname stat sid h1 h0)

/-- C7 counterexample: a schedule in which thread A and thread B each run
`read_user_stats` (acquire–read–release) before either runs
`write_user_stats` (acquire–write–release).  Every lock constraint is
respected, both increments complete (both program counters reach 6, the
lock is free), yet the counter ends at 1: one update is lost, refuting
"one atomic unit under a single mutual-exclusion lock that spans the full
read-modify-write cycle, so no two concurrent increments can lose an
update". -/
theorem stats_lock_lost_update_cex :
    (statsRun increment_lock_ops 1 none .images_generated none
        [false, false, false, true, true, true,
         false, false, false, true, true, true]).map
      (fun s => (s.pcA, s.pcB, s.lock_holder,
        statValue s.store 1 .global .images_generated)) =
      some (6, 6, none, 1) := by
  decide

/-- C7 amended: each statistics increment takes `user_stats_lock` around
its read and again around its write — (i) in every valid schedule a thread
is inside a locked section exactly while it holds the lock, so the read
(pc 1) and the write (pc 4) always execute under the lock and never
concurrently — but the lock is released between the two sections, so the
read-modify-write cycle is not atomic: (ii) two concurrent increments can
interleave read-read-write-write and leave the counter at 1 (a lost
update), while (iii) serial execution leaves it at 2; for contrast, under
the spec's spanning-lock program (iv) the mid-cycle interleaving is not
schedulable and (v) serial execution again gives 2. -/
theorem stats_lock_amended :
    (∀ (uid : Nat) (uname : Option String) (stat : StatKind) (sid : Option Int)
        (sched : List Bool) (s : StatsSysState),
      statsRun increment_lock_ops uid uname stat sid sched = some s →
      ((inCritical s.pcA ↔ s.lock_holder = some false) ∧
       (inCritical s.pcB ↔ s.lock_holder = some true))) ∧
    ((statsRun increment_lock_ops 1 none .images_generated none
        [false, false, false, true, true, true,
         false, false, false, true, true, true]).map
      (fun s => statValue s.store 1 .global .images_generated) = some 1) ∧
    ((statsRun increment_lock_ops 1 none .images_generated none
        [false, false, false, false, false, false,
         true, true, true, true, true, true]).map
      (fun s => statValue s.store 1 .global .images_generated) = some 2) ∧
    (statsRun spanning_lock_ops 1 none .images_generated none [false, true] =
      none) ∧
    ((statsRun spanning_lock_ops 1 none .images_generated none
        [false, false, false, false, true, true, true, true]).map
      (fun s => statValue s.store 1 .global .images_generated) = some 2) := by
  refine ⟨?_, by decide, by decide, by decide, by decide⟩
  intro uid uname stat sid sched s h
  exact statsRun_lockInv sched uid uname stat sid statsInit s h
    (by constructor <;> simp [statsInit, inCritical])

/-- Witness for C7 (amended): after thread A acquires and reads, the lock
discipline instantiates at the concrete reachable state. -/
theorem stats_lock_amended_witness :
    statsRun increment_lock_ops 1 none .images_generated none
        [false, false] = some ⟨some false, [], [], [], 2, 0⟩ ∧
    ((inCritical (2 : Nat) ↔ (some false : Option Bool) = some false) ∧
     (inCritical (0 : Nat) ↔ (some false : Option Bool) = some true)) := by
  refine ⟨by decide, ?_⟩
  exact stats_lock_amended.1 1 none .images_generated none [false, false]
    ⟨some false, [], [], [], 2, 0⟩ (by decide)

/-! ## Claim C5: the assembled context is strictly chronological

The loop sees messages newest first; the first 5 survivors go to
`current_topic_messages`, the rest to `background_messages`, each appended
at the end, so `current_topic_messages + background_messages` lists the
survivors in encounter (newest-first) order; the final `reversed(...)`
therefore yields oldest-first.  The proof tracks that the surviving
messages form a sublist of the input. -/

theorem process_message_track (fetch : String → Option String)
    (hist : ImageHistory) (now : Int) (cmid : Option Nat)
    (st : FetchState) (msg : Msg)
    (hinv : st.current_topic.length < 5 → st.background = []) :
    ((((process_message fetch hist now cmid st msg).current_topic ++
        (process_message fetch hist now cmid st msg).background).map Prod.fst =
      (st.current_topic ++ st.background).map Prod.fst ∨
     ((process_message fetch hist now cmid st msg).current_topic ++
        (process_message fetch hist now cmid st msg).background).map Prod.fst =
      (st.current_topic ++ st.background).map Prod.fst ++ [msg]) ∧
     ((process_message fetch hist now cmid st msg).current_topic.length < 5 →
      (process_message fetch hist now cmid st msg).background = [])) := by
  unfold process_message
  split
  · exact ⟨Or.inl rfl, hinv⟩
  split
  · exact ⟨Or.inl rfl, hinv⟩
  split
  · exact ⟨Or.inl rfl, hinv⟩
  split
  · rename_i hlt
    have hbg : st.background = [] := hinv hlt
    refine ⟨Or.inr ?_, fun _ => hbg⟩
    simp [hbg]
  · rename_i hge
    refine ⟨Or.inr ?_, fun hlt => absurd hlt hge⟩
    simp

theorem fold_track (fetch : String → Option String) (hist : ImageHistory)
    (now : Int) (cmid : Option Nat) :
    ∀ (msgs : List Msg) (st : FetchState),
      (st.current_topic.length < 5 → st.background = []) →
      ∃ keep : List Msg, keep.Sublist msgs ∧
        ((msgs.foldl (process_message fetch hist now cmid) st).current_topic ++
          (msgs.foldl (process_message fetch hist now cmid) st).background).map
            Prod.fst =
          (st.current_topic ++ st.background).map Prod.fst ++ keep := by
  intro msgs
  induction msgs with
  | nil =>
      intro st hinv
      exact ⟨[], by simp, by simp⟩
  | cons m rest ih =>
      intro st hinv
      obtain ⟨hdisj, hinv'⟩ := process_message_track fetch hist now cmid st m hinv
      obtain ⟨keep, hsub, heq⟩ := ih (process_message fetch hist now cmid st m) hinv'
      rcases hdisj with hsame | happ
      · refine ⟨keep, hsub.cons m, ?_⟩
        rw [List.foldl_cons, heq, hsame]
      · refine ⟨m :: keep, hsub.cons₂ m, ?_⟩
        rw [List.foldl_cons, heq, happ]
        simp

/-- C5: when the fetched window is strictly newest-first (as
`channel.history(oldest_first=False)` yields it), the output of
`fetch_recent_messages` is strictly chronological, oldest first: the
provenance-carrying pipeline produces a list whose source messages have
strictly increasing creation times, and the returned `{'role', 'content'}`
list is exactly its `FormattedMsg` component. -/
theorem fetch_recent_messages_chronological
    (msgs : List Msg) (cmid : Option Nat) (cache0 : UrlCache)
    (hist : ImageHistory) (fetch : String → Option String) (now : Int)
    (hsorted : msgs.Pairwise (fun a b => b.createdAt < a.createdAt)) :
    (fetch_recent_messages_full msgs cmid cache0 hist fetch now).Pairwise
      (fun a b => a.1.createdAt < b.1.createdAt) ∧
    (fetch_recent_messages msgs cmid cache0 hist fetch now).1 =
      (fetch_recent_messages_full msgs cmid cache0 hist fetch now).map
        Prod.snd := by
  obtain ⟨keep, hsub, heq⟩ := fold_track fetch hist now cmid msgs
    ⟨cache0, [], [], []⟩ (fun _ => rfl)
  constructor
  · unfold fetch_recent_messages_full
    rw [List.pairwise_reverse]
    have hkp : keep.Pairwise (fun a b => b.createdAt < a.createdAt) :=
      hsorted.sublist hsub
    have hmap : ((msgs.foldl (process_message fetch hist now cmid)
        ⟨cache0, [], [], []⟩).current_topic ++
        (msgs.foldl (process_message fetch hist now cmid)
        ⟨cache0, [], [], []⟩).background).map Prod.fst = keep := by
      simpa using heq
    have := List.pairwise_map.mp (hmap ▸ hkp)
    exact this
  · unfold fetch_recent_messages fetch_recent_messages_full
    simp [List.map_reverse]

/-- Concrete three-message history (newest first) for the C5 witness. -/
def c5Msgs : List Msg :=
  [⟨3, "alice", false, "newest message", 30⟩,
   ⟨2, "bob", false, "middle message", 20⟩,
   ⟨1, "carol", true, "oldest message", 10⟩]

/-- Witness for C5 at a concrete newest-first history. -/
theorem fetch_recent_messages_chronological_witness :
    c5Msgs.Pairwise (fun a b => b.createdAt < a.createdAt) ∧
    (fetch_recent_messages_full c5Msgs none [] [] (fun _ => none) 100).Pairwise
      (fun a b => a.1.createdAt < b.1.createdAt) ∧
    (fetch_recent_messages c5Msgs none [] [] (fun _ => none) 100).1 =
      (fetch_recent_messages_full c5Msgs none [] [] (fun _ => none) 100).map
        Prod.snd := by
  have h := fetch_recent_messages_chronological c5Msgs none [] []
    (fun _ => none) 100 (by decide)
  exact ⟨by decide, h.1, h.2⟩

/-! ### Sanity checks while developing -/

example : adjust_to_multiple_of_64 500 = 512 := by decide
example : adjust_to_multiple_of_64 512 = 512 := by decide
example : adjust_to_multiple_of_64 (-3) = 64 := by decide
example : adjust_to_multiple_of_64 1 = 64 := by decide

example :
    universal_cooldown_check ⟨[], ["vip"], 4⟩ 1 (some ["VIP"]) 0 [] =
      (.admitted, [0]) := by decide

example :
    universal_cooldown_check ⟨[7], ["vip"], 4⟩ 7 none 0 [(-100 : Int)] =
      (.admitted, [-100]) := by decide

example :
    universal_cooldown_check ⟨[], [], 2⟩ 1 none 100 [10, 50, 70] =
      (.rejected 2, [50, 70]) := by decide

example : url_cache_get (url_cache_put [] "u" (some "c") 0) "u" 3599 = some (some "c") := by
  decide

example : url_cache_get (url_cache_put [] "u" (some "c") 0) "u" 3600 = none := by
  decide

end Soupy
